import Mathlib

/-!
Verification development for the EDITH browser-agent extension
(`extension/lib/agent.ts`, `extension/lib/automation.ts`,
`extension/lib/research.ts`, `extension/lib/tab_manager.ts`,
`extension/entrypoints/background/index.ts`).

The TypeScript sources are shallowly embedded: pure computations become
Lean functions, the stateful registry becomes explicit state passing, and
effectful Chrome/CDP calls are represented by explicit outcome/effect
values.  Each definition is annotated with the source function it embeds.
-/

set_option maxHeartbeats 1000000
set_option maxRecDepth 10000

namespace Edith

/-! ## String helpers

JavaScript string idioms used throughout the sources:
`a || b` (empty string is falsy), `String.prototype.includes`,
`String.prototype.slice(0, n)` (modelled as `String.take`, identical for
strings free of surrogate pairs).
-/

/-- JavaScript `a || b` on strings: the empty string is falsy. -/
def jsOr (a b : String) : String := if a == "" then b else a

/-- JavaScript `o || undefined` on an optional string attribute: an empty
string collapses to `undefined`. -/
def jsOrNone (o : Option String) : Option String :=
  match o with
  | some "" => none
  | x => x

/-- Does the character list `l` start with `pat`? -/
def strStarts (pat l : List Char) : Bool :=
  match pat, l with
  | [], _ => true
  | _ :: _, [] => false
  | p :: ps, c :: cs => p == c && strStarts ps cs

/-- Does the character list `l` contain `pat` as a contiguous run? -/
def hasSub (pat : List Char) : List Char → Bool
  | [] => pat == []
  | c :: cs => strStarts pat (c :: cs) || hasSub pat cs

/-- JavaScript `s.includes(pat)` / `s.indexOf(pat) >= 0`. -/
def containsStr (s pat : String) : Bool := hasSub pat.data s.data

/-- JavaScript `s.toLowerCase()` (ASCII range, which is also the range
`Char.toLower` handles). -/
def jsToLower (s : String) : String := String.mk (s.data.map Char.toLower)

/-- Drop leading whitespace characters. -/
def dropWS : List Char → List Char
  | [] => []
  | c :: rest => if c.isWhitespace then dropWS rest else c :: rest

/-- JavaScript `s.trim()`. -/
def jsTrim (s : String) : String := String.mk ((dropWS ((dropWS s.data).reverse)).reverse)

/-! ## Transcript pruning (`agent.ts` : `pruneHistory`)

`Message` models the `Message` interface of `storage.ts` restricted to
the fields `pruneHistory` and claim C1 mention: the unique `id` (a UUID
in the source, a `Nat` here), the `role`, and whether the message carries
a `toolCalls` array (`pruneHistory` never reads `toolCalls`; the field is
kept so the claim about assistant-with-tool-calls messages can be
stated). -/

inductive Role where
  | user
  | assistant
  | tool
deriving DecidableEq

structure Message where
  id : Nat
  role : Role
  hasToolCalls : Bool
deriving DecidableEq

/-- The `kept` id set built by the `for (const msg of reversed)` loop of
`pruneHistory`, processing the (already reversed) list with the running
`toolRound` counter. -/
def keptIds (maxToolRounds : Nat) : List Message → Nat → List Nat
  | [], _ => []
  | m :: rest, toolRound =>
    match m.role with
    | .user => m.id :: keptIds maxToolRounds rest toolRound
    | .tool =>
        (if toolRound < maxToolRounds then [m.id] else []) ++
          keptIds maxToolRounds rest (toolRound + 1)
    | .assistant =>
        (if toolRound ≤ maxToolRounds then [m.id] else []) ++
          keptIds maxToolRounds rest toolRound

/-- Source `agent.ts` `pruneHistory(messages, maxToolRounds = 6)`: build the kept
id set over the reversed list, then filter the original list by id
membership. -/
def pruneHistory (messages : List Message) (maxToolRounds : Nat := 6) : List Message :=
  let kept := keptIds maxToolRounds messages.reverse 0
  messages.filter (fun m => decide (m.id ∈ kept))

/-- Number of `tool`-role messages in a list. -/
def toolCount (l : List Message) : Nat := l.countP (fun m => m.role == Role.tool)

/-- Structural right-to-left specification of the pruning pass: keep every
user message, keep a tool message iff fewer than `K` tool messages follow
it, keep an assistant message iff at most `K` tool messages follow it.
The second component is the number of tool messages in the list. -/
def pruneAux (maxToolRounds : Nat) : List Message → List Message × Nat
  | [] => ([], 0)
  | m :: rest =>
    let r := pruneAux maxToolRounds rest
    match m.role with
    | .user => (m :: r.1, r.2)
    | .tool => ((if r.2 < maxToolRounds then [m] else []) ++ r.1, r.2 + 1)
    | .assistant => ((if r.2 ≤ maxToolRounds then [m] else []) ++ r.1, r.2)

/-- Default message used for positional indexing statements. -/
def mdefault : Message := ⟨0, Role.user, false⟩

/-- Concrete transcript refuting C1 as stated: one assistant message
without tool calls, followed by seven tool-result messages. -/
def cexMessages : List Message :=
  [⟨0, Role.assistant, false⟩,
   ⟨1, Role.tool, false⟩, ⟨2, Role.tool, false⟩, ⟨3, Role.tool, false⟩,
   ⟨4, Role.tool, false⟩, ⟨5, Role.tool, false⟩, ⟨6, Role.tool, false⟩,
   ⟨7, Role.tool, false⟩]

/-- Sample transcript for the C1 witness. -/
def wMessages : List Message :=
  [⟨10, Role.user, false⟩, ⟨11, Role.assistant, true⟩, ⟨12, Role.tool, false⟩]

/-! ## Snapshot data model (`automation.ts`)

`SnapshotElement` and `PageSnapshot` embed the interfaces of the same
names.  Optional TypeScript fields become `Option`; the booleans that the
source stores as `x || undefined` (`disabled`, `isSelect`) are `Bool`
(`false` plays the role of `undefined`, which is how the formatter reads
them). -/

structure SelectOptionData where
  value : String
  text : String
  selected : Bool
deriving DecidableEq

structure SnapshotElement where
  uid : Nat
  tag : String
  role : String
  name : String
  context : String
  href : Option String
  type : Option String
  value : Option String
  placeholder : Option String
  x : Int
  y : Int
  width : Int
  height : Int
  isClickable : Bool
  isInput : Bool
  isVideo : Bool
  checked : Option Bool
  disabled : Bool
  ariaExpanded : Option String
  options : Option (List SelectOptionData)
  isSelect : Bool
deriving DecidableEq

structure PageSnapshot where
  url : String
  title : String
  elements : List SnapshotElement
  rawText : String
deriving DecidableEq

/-! ## The in-page snapshot producer (`automation.ts` : `SNAPSHOT_JS`)

`DomNode` abstracts one DOM element as seen by `processElement`: each
field models the value of the corresponding DOM read.  Computations that
traverse the page beyond the node itself (`isVisible`, `isNearViewport`,
`getName`, `getContext`, the descendant `img[alt]` lookup) are abstracted
into input fields, annotated below; the per-node decision logic is
embedded verbatim. -/

structure DomNode where
  /-- `node.tagName` (upper case).  `""` models a node without a tag. -/
  tagName : String
  /-- `node.getAttribute('role')`. -/
  roleAttr : Option String
  /-- `node.getAttribute('onclick') !== null`. -/
  hasOnClick : Bool
  /-- `node.isContentEditable`. -/
  isContentEditableProp : Bool
  /-- `node.getAttribute('contenteditable')`. -/
  contentEditableAttr : Option String
  /-- `node.type` when it is a string (SVG nodes expose a non-string
  `type`; the source coerces those to `''`, modelled by `none`). -/
  typeProp : Option String
  /-- `node.value || ''`. -/
  valueProp : String
  /-- `!!node.checked`. -/
  checkedProp : Bool
  /-- `node.getAttribute('aria-checked')`. -/
  ariaChecked : Option String
  /-- `node.disabled`. -/
  disabledProp : Bool
  /-- `node.getAttribute('aria-disabled')`. -/
  ariaDisabled : Option String
  /-- `node.getAttribute('aria-expanded')`. -/
  ariaExpandedAttr : Option String
  /-- `node.href`. -/
  hrefProp : Option String
  /-- `node.getAttribute('placeholder')`. -/
  placeholderAttr : Option String
  /-- `node.getAttribute('data-testid') || ''`. -/
  dataTestId : String
  /-- `node.getAttribute('tabindex') !== null`. -/
  hasTabIndexAttr : Bool
  /-- Result of the in-page `isVisible(node)` helper. -/
  visible : Bool
  /-- Result of the in-page `isNearViewport(rect)` helper. -/
  nearViewport : Bool
  /-- Rounded `getBoundingClientRect()` values. -/
  rectX : Int
  rectY : Int
  rectW : Int
  rectH : Int
  /-- Result of the in-page `getName(node)` helper (accessible label). -/
  computedName : String
  /-- Result of the in-page `getContext(node)` helper. -/
  contextLabel : String
  /-- `alt` of the first descendant `img[alt]`, used as a name fallback. -/
  innerImgAlt : Option String
  /-- Entries of `node.options` for `<select>` nodes. -/
  optionsProp : List SelectOptionData
  /-- Existing `data-edith-uid` attribute, if any. -/
  existingUid : Option Nat
deriving DecidableEq

def CLICKABLE_TAGS : List String := ["A", "BUTTON", "INPUT", "SELECT", "TEXTAREA", "LABEL"]

def INPUT_TAGS : List String := ["INPUT", "TEXTAREA", "SELECT"]

def NOISE_ROLES : List String :=
  ["presentation", "none", "img", "list", "listitem", "group",
   "row", "rowgroup", "cell", "gridcell", "columnheader", "rowheader",
   "definition", "term", "directory", "figure", "separator", "math",
   "note", "status", "log", "marquee", "timer", "tooltip", "feed",
   "application", "document", "article", "paragraph", "generic"]

def ACTIONABLE_ROLES : List String :=
  ["button", "link", "tab", "menuitem", "menuitemcheckbox",
   "menuitemradio", "option", "treeitem", "switch", "checkbox", "radio",
   "combobox", "searchbox", "textbox", "slider", "spinbutton", "scrollbar",
   "progressbar", "tabpanel", "dialog", "alertdialog", "navigation", "search",
   "banner", "complementary", "form", "region", "heading"]

/-- The `isContentEditable` test of `processElement`:
`node.isContentEditable || getAttribute('contenteditable') === 'true' ||
getAttribute('contenteditable') === ''`. -/
def nodeContentEditable (node : DomNode) : Bool :=
  node.isContentEditableProp
    || node.contentEditableAttr == some "true"
    || node.contentEditableAttr == some ""

/-- Local `isClickableTag` of `processElement`. -/
def nodeIsClickableTag (node : DomNode) : Bool := CLICKABLE_TAGS.contains node.tagName

/-- Local `isInput` of `processElement`:
`INPUT_TAGS.indexOf(tag) >= 0 || isContentEditable`. -/
def nodeIsInput (node : DomNode) : Bool :=
  INPUT_TAGS.contains node.tagName || nodeContentEditable node

/-- Local `inputType` of `processElement`: `node.type` lowercased when it is a
string, `''` otherwise. -/
def nodeInputType (node : DomNode) : String := jsToLower (node.typeProp.getD "")

/-- Local `isButton` of `processElement`. -/
def nodeIsButton (node : DomNode) : Bool :=
  node.tagName == "BUTTON" || node.roleAttr == some "button"

/-- Local `isVideo` of `processElement`. -/
def nodeIsVideo (node : DomNode) : Bool :=
  node.tagName == "VIDEO" || containsStr node.dataTestId "video"

/-- Local `hasActionableRole` of `processElement`. -/
def nodeHasActionableRole (node : DomNode) : Bool :=
  match node.roleAttr with
  | some r => ACTIONABLE_ROLES.contains r
  | none => false

/-- Local `hasNoiseRole` of `processElement`. -/
def nodeHasNoiseRole (node : DomNode) : Bool :=
  match node.roleAttr with
  | some r => NOISE_ROLES.contains r
  | none => false

/-- Local `isTabIndexOnly` of `processElement`. -/
def nodeIsTabIndexOnly (node : DomNode) : Bool :=
  !nodeIsClickableTag node && !node.hasOnClick && !nodeIsInput node && !nodeIsVideo node
    && !nodeHasActionableRole node && node.hasTabIndexAttr

/-- The stable-uid step of `processElement`: reuse an existing
`data-edith-uid`, otherwise consume the counter. -/
def nodeUid (node : DomNode) (uidCounter : Nat) : Nat × Nat :=
  match node.existingUid with
  | some u => (u, uidCounter)
  | none => (uidCounter, uidCounter + 1)

/-- Local `name` of `processElement` after the empty-name `img[alt]` fallback. -/
def nodeDisplayName (node : DomNode) : String :=
  if node.computedName == "" && !nodeIsInput node && !(node.tagName == "SELECT")
      && !nodeIsVideo node then
    node.innerImgAlt.getD ""
  else node.computedName

/-- The in-page `getRole(node)`: `role` attribute or lowercased tag. -/
def nodeRole (node : DomNode) : String :=
  match node.roleAttr with
  | some r => if r == "" then jsToLower node.tagName else r
  | none => jsToLower node.tagName

/-- Local `checked` of `processElement`: checkbox/radio `.checked`, overridden
by `aria-checked`. -/
def nodeChecked (node : DomNode) : Option Bool :=
  if node.ariaChecked == some "true" then some true
  else if node.ariaChecked == some "false" then some false
  else if nodeInputType node == "checkbox" || nodeInputType node == "radio" then
    some node.checkedProp
  else none

/-- Source `SNAPSHOT_JS` `processElement(node)` with the walker's `uidCounter`
threaded explicitly.  Returns the element pushed (or `none` for a skipped
node) and the updated counter.  The nested-clickable bookkeeping of the
source (`processedParents`) only mutates a set and never skips the node,
so it contributes nothing here. -/
def processElement (node : DomNode) (uidCounter : Nat) : Option SnapshotElement × Nat :=
  if node.tagName == "" then (none, uidCounter)
  else if !nodeContentEditable node && nodeIsInput node
      && (nodeInputType node == "password" || nodeInputType node == "hidden") then
    (none, uidCounter)
  else if nodeHasNoiseRole node && !nodeIsClickableTag node && !node.hasOnClick
      && !nodeIsInput node && !nodeIsVideo node then
    (none, uidCounter)
  else if nodeIsTabIndexOnly node
      && (node.tagName == "DIV" || node.tagName == "SPAN" || node.tagName == "LI") then
    (none, uidCounter)
  else if !nodeIsClickableTag node && !node.hasOnClick && !nodeHasActionableRole node
      && !nodeIsVideo node && !nodeContentEditable node && !nodeIsInput node then
    (none, uidCounter)
  else if !nodeIsInput node && !node.visible then (none, uidCounter)
  else if !node.nearViewport then (none, uidCounter)
  else if nodeDisplayName node == "" && !nodeIsInput node && !(node.tagName == "SELECT")
      && !nodeIsVideo node then
    (none, (nodeUid node uidCounter).2)
  else
    (some {
        uid := (nodeUid node uidCounter).1
        tag := jsToLower node.tagName
        role := nodeRole node
        name := nodeDisplayName node
        context := node.contextLabel
        href := jsOrNone node.hrefProp
        type := if nodeInputType node == "" then none else some (nodeInputType node)
        value := if nodeIsInput node then some node.valueProp else none
        placeholder := jsOrNone node.placeholderAttr
        x := node.rectX
        y := node.rectY
        width := node.rectW
        height := node.rectH
        isClickable := nodeIsClickableTag node || node.hasOnClick || nodeIsButton node
          || (node.tagName == "A") || nodeHasActionableRole node
        isInput := nodeIsInput node
        isVideo := nodeIsVideo node
        checked := nodeChecked node
        disabled := node.disabledProp || node.ariaDisabled == some "true"
        ariaExpanded := jsOrNone node.ariaExpandedAttr
        options := if node.tagName == "SELECT" then some (node.optionsProp.take 30) else none
        isSelect := node.tagName == "SELECT" }, (nodeUid node uidCounter).2)

/-- The tree walk of `SNAPSHOT_JS`: process the nodes in document order,
threading the uid counter. -/
def snapshotElements : List DomNode → Nat → List SnapshotElement
  | [], _ => []
  | n :: rest, uidCounter =>
    match processElement n uidCounter with
    | (some e, c) => e :: snapshotElements rest c
    | (none, c) => snapshotElements rest c

/-! ## Snapshot formatter (`agent.ts` : `formatSnapshot`, richer version)

The helpers below implement the pieces of the formatter: the
case-insensitive product-URL regex
`/\/(dp|gp\/product|gp\/aw|p\/itm)\/|myntra\.com\/.+\/\d+\/buy|\/p\/[a-zA-Z0-9]+/i`
as an executable matcher, the `\n{2,} → \n` collapse on the raw-text
preview, and the tier classification. -/

/-- Does `p` hold of some suffix of the list? -/
def anySuffix (p : List Char → Bool) : List Char → Bool
  | [] => p []
  | c :: rest => p (c :: rest) || anySuffix p rest

/-- After at least one digit: consume further digits, then require
`/buy`. -/
def digitsTail : List Char → Bool
  | '/' :: 'b' :: 'u' :: 'y' :: _ => true
  | c :: rest => if c.isDigit then digitsTail rest else false
  | [] => false

/-- Head-match for `\d+\/buy`: one or more digits, then `/buy`. -/
def digitsSlashBuy : List Char → Bool
  | [] => false
  | c :: rest =>
    if c.isDigit then digitsTail rest else false

/-- Search for `\/\d+\/buy` allowing further `.`-chars (≠ newline) to be
consumed first; used for the tail of the `myntra` regex branch. -/
def slashDigitsBuySearch : List Char → Bool
  | [] => false
  | c :: rest =>
    (c == '/' && digitsSlashBuy rest) || (c != '\n' && slashDigitsBuySearch rest)

/-- Head-match for `myntra\.com\/.+\/\d+\/buy`. -/
def myntraHead : List Char → Bool
  | 'm' :: 'y' :: 'n' :: 't' :: 'r' :: 'a' :: '.' :: 'c' :: 'o' :: 'm' :: '/' :: rest =>
    (match rest with
     | [] => false
     | c :: rest2 => c != '\n' && slashDigitsBuySearch rest2)
  | _ => false

/-- Head-match for `\/p\/[a-zA-Z0-9]+`. -/
def pSlugHead : List Char → Bool
  | '/' :: 'p' :: '/' :: c :: _ => c.isAlphanum
  | _ => false

/-- Source `agent.ts` `productPattern.test(href)` (the `/i` flag is modelled by
lowercasing first). -/
def productPatternTest (s : String) : Bool :=
  let l := (jsToLower s).data
  hasSub "/dp/".data l || hasSub "/gp/product/".data l
    || hasSub "/gp/aw/".data l || hasSub "/p/itm/".data l
    || anySuffix myntraHead l || anySuffix pSlugHead l

/-- Model of `.replace(/\n{2,}/g, '\n')`: collapse every run of two or more
newlines to a single one.  The flag records whether the previous kept
character was a newline. -/
def collapseNL (prevNL : Bool) : List Char → List Char
  | [] => []
  | c :: rest =>
    if c == '\n' then
      if prevNL then collapseNL true rest else '\n' :: collapseNL true rest
    else c :: collapseNL false rest

/-- Model of `snapshot.rawText.slice(0, 800).replace(/\n{2,}/g, '\n').trim()`. -/
def textPreview (raw : String) : String :=
  jsTrim (String.mk (collapseNL false (raw.take 800).data))

/-- One classified element of the formatter's tier lists: the source's
`type Tier = { el; typeLabel; label; state; ctx }`. -/
structure TierItem where
  el : SnapshotElement
  typeLabel : String
  label : String
  state : String
  ctx : String
deriving DecidableEq

/-- Truthiness of an optional string (JavaScript `undefined` and `''` are
both falsy). -/
def optTruthy (o : Option String) : Bool :=
  match o with
  | some s => s != ""
  | none => false

/-- The formatter's per-element classification: type label by the
priority ladder, display label with `(current: "...")` for inputs with a
value, state annotations, and context suffix. -/
def classifyElement (el : SnapshotElement) : TierItem :=
  let typeLabel :=
    if el.isSelect || el.tag == "select" then "SELECT"
    else if el.type == some "checkbox" || el.role == "checkbox" || el.role == "switch" then
      "CHECKBOX"
    else if el.type == some "radio" || el.role == "radio" then "RADIO"
    else if el.isInput then "INPUT"
    else if el.isVideo || (match el.href with
      | some h => containsStr h "watch"
      | none => false) then "VIDEO"
    else if (match el.href with
      | some h => h != "" && productPatternTest h
      | none => false) then "PRODUCT"
    else if !optTruthy el.href && el.isClickable then "BUTTON"
    else "LINK"
  let label0 := jsOr (el.name.take 100)
    (jsOr (el.placeholder.getD "")
      (jsOr ((el.href.map (fun h => h.take 80)).getD "") el.tag))
  let label :=
    if el.isInput && optTruthy el.value then
      label0 ++ " (current: \"" ++ (el.value.getD "").take 40 ++ "\")"
    else label0
  let st1 :=
    if el.checked == some true then " [checked]"
    else if el.checked == some false && (typeLabel == "CHECKBOX" || typeLabel == "RADIO") then
      " [unchecked]"
    else ""
  let st2 := if el.disabled then " [disabled]" else ""
  let st3 :=
    if el.ariaExpanded == some "true" then " [expanded]"
    else if el.ariaExpanded == some "false" then " [collapsed]"
    else ""
  let ctx := if el.context != "" then " [in: " ++ el.context ++ "]" else ""
  ⟨el, typeLabel, label, st1 ++ st2 ++ st3, ctx⟩

/-- Tier number of a classified element (`tier1`–`tier4` of the source). -/
def tierOf (it : TierItem) : Nat :=
  if it.typeLabel == "INPUT" || it.typeLabel == "SELECT" then 1
  else if it.typeLabel == "BUTTON" || it.typeLabel == "CHECKBOX" || it.typeLabel == "RADIO" then 2
  else if it.typeLabel == "PRODUCT" || it.typeLabel == "VIDEO" then 3
  else 4

/-- The output lines for one shown element: the element line, plus the
`options:` line for selects with options (up to 8 shown). -/
def renderItem (it : TierItem) : List String :=
  let main := "  " ++ toString it.el.uid ++ " | " ++ it.typeLabel ++ " | \"" ++ it.label
    ++ "\"" ++ it.state ++ it.ctx
  match it.el.options with
  | some os =>
    if os.length > 0 then
      let optionsList := String.intercalate ", "
        ((os.take 8).map (fun o => (if o.selected then "→ " else "  ") ++ "\"" ++ o.text ++ "\""))
      let extra := if os.length > 8 then ", ... +" ++ toString (os.length - 8) ++ " more" else ""
      [main, "        options: [" ++ optionsList ++ extra ++ "]"]
    else [main]
  | none => [main]

/-- Source `agent.ts` `formatSnapshot(snapshot)` (the richer, canonical
version). -/
def formatSnapshot (snapshot : PageSnapshot) : String :=
  let lines0 := ["PAGE: " ++ snapshot.url, "TITLE: " ++ snapshot.title]
  let lines1 :=
    if snapshot.rawText != "" then
      lines0 ++ ["", "PAGE TEXT (first 800 chars):", textPreview snapshot.rawText]
    else lines0
  let lines2 := lines1 ++ ["", "ELEMENTS (" ++ toString snapshot.elements.length ++ " total):"]
  if snapshot.elements.length == 0 then
    String.intercalate "\n"
      (lines2 ++ ["  (none — page may still be loading, call take_snapshot again)"])
  else
    let items := snapshot.elements.map classifyElement
    let tier1 := items.filter (fun it => tierOf it == 1)
    let tier2 := items.filter (fun it => tierOf it == 2)
    let tier3 := items.filter (fun it => tierOf it == 3)
    let tier4 := items.filter (fun it => tierOf it == 4)
    let ordered := tier1 ++ tier2 ++ tier3 ++ tier4
    let shown := ordered.take 150
    let hasCheckboxes := tier2.any (fun it => it.typeLabel == "CHECKBOX")
    let hasSelects := tier1.any (fun it => it.typeLabel == "SELECT")
    let hasProducts := tier3.length > 0
    let hintLines :=
      (if hasCheckboxes || hasSelects then
        ["  💡 FILTERS DETECTED: "
          ++ (if hasCheckboxes then "Use click(uid) on CHECKBOX to filter. " else "")
          ++ (if hasSelects then "Use select_option(uid, \"text\") on SELECT to sort/filter. "
              else "")
          ++ "After filtering, call wait_for_page_update()."]
      else [])
      ++ (if hasProducts then
        ["  💡 " ++ toString tier3.length ++ " PRODUCTS found — click a PRODUCT link to view details."]
      else [])
    let tailLines :=
      if snapshot.elements.length > 150 then
        ["  ... and " ++ toString (snapshot.elements.length - 150)
          ++ " more (scroll down to see them)"]
      else []
    String.intercalate "\n" (lines2 ++ hintLines ++ (shown.map renderItem).flatten ++ tailLines)

/-- A snapshot element describing a password input carrying a stored
value, as an adversarial input to the formatter. -/
def pwElement : SnapshotElement :=
  { uid := 7, tag := "input", role := "textbox", name := "Password", context := ""
    href := none, type := some "password", value := some "S3CRETVAL", placeholder := none
    x := 0, y := 0, width := 100, height := 20
    isClickable := true, isInput := true, isVideo := false
    checked := none, disabled := false, ariaExpanded := none
    options := none, isSelect := false }

def pwSnapshot : PageSnapshot :=
  { url := "https://example.com/login", title := "Login"
    elements := [pwElement], rawText := "" }

/-- A plain visible text input, used to witness the producer guard. -/
def witInputNode : DomNode :=
  { tagName := "INPUT", roleAttr := none, hasOnClick := false
    isContentEditableProp := false, contentEditableAttr := none
    typeProp := some "text", valueProp := "", checkedProp := false
    ariaChecked := none, disabledProp := false, ariaDisabled := none
    ariaExpandedAttr := none, hrefProp := none, placeholderAttr := some "Search"
    dataTestId := "", hasTabIndexAttr := false, visible := true, nearViewport := true
    rectX := 0, rectY := 0, rectW := 200, rectH := 30
    computedName := "Search", contextLabel := "", innerImgAlt := none
    optionsProp := [], existingUid := none }

def witInputElement : SnapshotElement :=
  { uid := 1, tag := "input", role := "input", name := "Search", context := ""
    href := none, type := some "text", value := some "", placeholder := some "Search"
    x := 0, y := 0, width := 200, height := 30
    isClickable := true, isInput := true, isVideo := false
    checked := none, disabled := false, ariaExpanded := none
    options := none, isSelect := false }

/-! ## Click (`automation.ts` : `clickElement`)

The source resolves the target tab (`tabId || getActiveTabId()`; claims
pass `tabId` explicitly, so no Chrome call happens), looks the UID up in
the snapshot, and **returns an error string before any
`ensureAttached`/CDP send** when the UID is absent.  `ClickStart`
captures that prefix: `errorReturn` is the early return — no debugger
attach and no CDP command has been issued — while `proceed` stands for
the continuation that attaches and clicks. -/

inductive ClickStart where
  | errorReturn (message : String)
  | proceed (el : SnapshotElement)
deriving DecidableEq

/-- Source `automation.ts` `clickElement(uid, snapshot, tabId)` up to its first
effect. -/
def clickElement (uid : Nat) (snapshot : PageSnapshot) : ClickStart :=
  match snapshot.elements.find? (fun e => e.uid == uid) with
  | none =>
    .errorReturn ("Error: Element with UID " ++ toString uid
      ++ " not found in snapshot. Take a new snapshot first.")
  | some el => .proceed el

/-- A one-element snapshot used by the C3 witness. -/
def wClickSnapshot : PageSnapshot :=
  { url := "https://example.com", title := "Example"
    elements := [{ witInputElement with uid := 1 }], rawText := "" }

/-! ## Typing (`automation.ts` : `typeText`)

After resolving the element, the source merely logs a console warning
when `el.isInput` is false and proceeds regardless; the effect sequence
is: scroll into view, mouse click to focus, JS focus-and-clear, a CDP
focus fallback, `Input.insertText`, then framework events.  Effects are
reified so the claim "proceeds with the focus–clear–insertText sequence"
is about the model, not about prose. -/

inductive TypeTextEffect where
  | scrollIntoView
  | mouseFocusClick
  | focusAndClear
  | insertText (text : String)
  | fireFrameworkEvents
deriving DecidableEq

inductive TypeTextResult where
  | errorReturn (message : String)
  | typed (effects : List TypeTextEffect) (message : String)
deriving DecidableEq

/-- The effect sequence `typeText` performs once the element is found. -/
def typeTextEffects (text : String) : List TypeTextEffect :=
  [.scrollIntoView, .mouseFocusClick, .focusAndClear, .insertText text, .fireFrameworkEvents]

/-- Source `automation.ts` `typeText(text, uid, snapshot, tabId)`. -/
def typeText (text : String) (uid : Nat) (snapshot : PageSnapshot) : TypeTextResult :=
  match snapshot.elements.find? (fun e => e.uid == uid) with
  | none => .errorReturn ("Error: Element UID " ++ toString uid ++ " not found. Take a new snapshot.")
  | some el =>
    -- `if (!el.isInput)` only emits a console warning in the source and
    -- falls through to the same effect sequence.
    .typed (typeTextEffects text)
      ("Typed \"" ++ text ++ "\" into " ++ el.tag ++ " \"" ++ el.name ++ "\"")

/-- A snapshot whose single element is explicitly not flagged as an
input (`isInput = false`), e.g. a contenteditable div the producer
missed. -/
def wTypeSnapshot : PageSnapshot :=
  { url := "https://example.com", title := "Example"
    elements := [{ witInputElement with uid := 3, tag := "div", name := "Message", isInput := false }]
    rawText := "" }

/-! ## Research-plan decomposition (`research.ts` : `decomposeTask`)

The LLM call and `JSON.parse` are abstracted into an
`Option ResearchPlan` input: `none` covers every path through the
`catch` (malformed JSON, and also a parsed object without a `subTasks`
array, whose `.length` access throws).  The post-parse enforcement is
embedded verbatim. -/

structure SubTask where
  description : String
  url : String
  extractionGoal : String
deriving DecidableEq

structure ResearchPlan where
  isResearch : Bool
  reasoning : String
  subTasks : List SubTask
deriving DecidableEq

def MAX_RESEARCH_TABS : Nat := 5

/-- Source `research.ts` `decomposeTask` applied to the parse result of the LLM
response. -/
def decomposeTask (parsed : Option ResearchPlan) : ResearchPlan :=
  match parsed with
  | none => { isResearch := false, reasoning := "Failed to parse decomposition", subTasks := [] }
  | some plan =>
    let sliced :=
      if plan.subTasks.length > MAX_RESEARCH_TABS then plan.subTasks.take MAX_RESEARCH_TABS
      else plan.subTasks
    if sliced.length < 2 then { isResearch := false, reasoning := plan.reasoning, subTasks := [] }
    else { plan with subTasks := sliced }

/-- Source `background/index.ts` `runResearchFromPrompt` gate: `runResearch`
(which creates the tabs and launches the sub-task loops) is entered only
when `plan.isResearch && plan.subTasks.length >= 2`. -/
def researchProceeds (plan : ResearchPlan) : Bool :=
  plan.isResearch && decide (plan.subTasks.length ≥ 2)

/-- Tabs created and sub-task agent loops launched by a research run for
a given plan: `runResearch` opens one tab per sub-task and runs one
`runSubTask` per tab; the early-return branch opens none. -/
def researchTabsAndLoops (plan : ResearchPlan) : Nat × Nat :=
  if researchProceeds plan then (plan.subTasks.length, plan.subTasks.length) else (0, 0)

/-! ## Key presses (`automation.ts` : `pressKey`, `waitForNavigation`)

Timing is abstracted into the list `polls` of URLs returned by the
successive `getCurrentUrl` calls of the 300ms/3s polling loop (at most
10 polls fit in the 3s window; `getCurrentUrl` returns `""` on failure).
`waitedForLoad` records whether the ≤8s `waitForLoad` inside
`waitForNavigation` ran — it runs only when a navigation was
detected, so no navigation wait extends past the poll window
otherwise. -/

/-- The first UTF-16 code unit of a character —
JavaScript `key.charCodeAt(0)` for the character at index 0. -/
def utf16FirstUnit (c : Char) : Nat :=
  if c.toNat < 65536 then c.toNat else 55296 + (c.toNat - 65536) / 1024

/-- JavaScript `key.charCodeAt(0)`; `none` models the `NaN` produced on
an empty string. -/
def charCodeAt0 (s : String) : Option Nat := s.data.head?.map utf16FirstUnit

/-- The fixed `keyMap` table of `pressKey`. -/
def keyMap (key : String) : Option (String × Nat) :=
  if key == "Enter" then some ("Enter", 13)
  else if key == "Tab" then some ("Tab", 9)
  else if key == "Escape" then some ("Escape", 27)
  else if key == "ArrowDown" then some ("ArrowDown", 40)
  else if key == "ArrowUp" then some ("ArrowUp", 38)
  else if key == "Backspace" then some ("Backspace", 8)
  else none

structure KeyEventInfo where
  key : String
  code : String
  vk : Option Nat
deriving DecidableEq

/-- Model of `keyMap[key] || { code: key, vk: key.charCodeAt(0) }`. -/
def keyInfo (key : String) : KeyEventInfo :=
  match keyMap key with
  | some (c, v) => ⟨key, c, some v⟩
  | none => ⟨key, key, charCodeAt0 key⟩

/-- Source `automation.ts` `waitForNavigation(tabId, urlBefore)`: true iff some
poll observed a nonempty URL different from `urlBefore`. -/
def waitForNavigation (urlBefore : String) (polls : List String) : Bool :=
  polls.any (fun u => u != "" && u != urlBefore)

structure PressKeyRun where
  keyDown : KeyEventInfo
  keyUp : KeyEventInfo
  waitedForLoad : Bool
  message : String
deriving DecidableEq

/-- Source `automation.ts` `pressKey(key, tabId)`. -/
def pressKey (key : String) (urlBefore : String) (polls : List String) : PressKeyRun :=
  let info := keyInfo key
  if key == "Enter" then
    if waitForNavigation urlBefore polls then
      ⟨info, info, true, "Pressed Enter — page navigated to new URL."⟩
    else ⟨info, info, false, "Pressed key: " ++ key⟩
  else ⟨info, info, false, "Pressed key: " ++ key⟩

/-! ## Dropdown selection (`automation.ts` : `selectOption`)

The in-page script receives the live `<select>` node, modelled by
`PageSelect` (`none` when `querySelector` finds no node).  The quote
escaping of `safeValue` round-trips for values free of backslashes, so
comparisons use the requested value directly.  The first in-page loop
accepts, per option, `option.value === value ||
option.text.trim().toLowerCase() === value.toLowerCase()`; the second
loop matches by lowercase substring. -/

structure PageOption where
  value : String
  text : String
deriving DecidableEq

structure PageSelect where
  tagName : String
  options : List PageOption
  selectedIndex : Int
deriving DecidableEq

/-- Predicate of the first in-page matching loop (value equality OR
exact trimmed-lowercased text equality, checked per option in one
pass). -/
def optionMatchExact (value : String) (o : PageOption) : Bool :=
  o.value == value || jsToLower (jsTrim o.text) == jsToLower value

/-- Predicate of the second in-page matching loop (lowercase substring
of the trimmed option text). -/
def optionMatchSub (value : String) (o : PageOption) : Bool :=
  containsStr (jsToLower (jsTrim o.text)) (jsToLower value)

structure InPageSelectOutcome where
  message : String
  el : Option PageSelect
  firedInputChange : Bool
deriving DecidableEq

/-- The result of assigning `selectedIndex := i` and firing
`input`/`change`: the message reports the selected option's text. -/
def selectAssign (el : PageSelect) (i : Nat) : InPageSelectOutcome :=
  ⟨"Selected: " ++ ((el.options.get? i).map PageOption.text).getD "",
   some { el with selectedIndex := (i : Int) }, true⟩

/-- The script injected by `selectOption` (`Runtime.evaluate` body),
applied to the node found by `document.querySelector` (`none` when the
node is gone). -/
def selectOptionInPage (value : String) (dom : Option PageSelect) : InPageSelectOutcome :=
  match dom with
  | none => ⟨"Element not found in DOM", none, false⟩
  | some el =>
    if el.tagName != "SELECT" then ⟨"Not a select element", some el, false⟩
    else
      match el.options.findIdx? (optionMatchExact value) with
      | some i => selectAssign el i
      | none =>
        match el.options.findIdx? (optionMatchSub value) with
        | some i => selectAssign el i
        | none =>
          ⟨"Option not found: " ++ value ++ ". Available: "
              ++ String.intercalate ", " (el.options.map PageOption.text),
           some el, false⟩

/-- Source `automation.ts` `selectOption(uid, value, snapshot, tabId)`: snapshot
lookup and the non-select rejection, then the in-page script.  The final
`result?.result?.value || 'select_option completed'` fallback is the
`jsOr`. -/
def selectOption (uid : Nat) (value : String) (snapshot : PageSnapshot)
    (dom : Option PageSelect) : String × Option PageSelect × Bool :=
  match snapshot.elements.find? (fun e => e.uid == uid) with
  | none => ("Error: Element UID " ++ toString uid ++ " not found. Take a new snapshot.",
      dom, false)
  | some el =>
    if !el.isSelect && el.tag != "select" then
      ("Error: Element UID " ++ toString uid ++ " is a " ++ el.tag
        ++ ", not a <select>. Use click() instead.", dom, false)
    else
      let r := selectOptionInPage value dom
      (jsOr r.message "select_option completed", r.el, r.firedInputChange)

/-- The select used by the C6 counterexample: option 0 has visible text
`"x"`, option 1 has value `"x"`. -/
def cexSelect : PageSelect :=
  { tagName := "SELECT", options := [⟨"a", "x"⟩, ⟨"x", "b"⟩], selectedIndex := 0 }

/-- The select used by the C6 witness. -/
def wSelect : PageSelect :=
  { tagName := "SELECT", options := [⟨"relevance", "Relevance"⟩, ⟨"price", "Price low to high"⟩]
    selectedIndex := 0 }

/-! ## Tab registry (`tab_manager.ts` : `TabManager`)

The private `Map<number, TabState>` becomes an insertion-ordered
association list (`Registry`).  The `chrome.debugger.attach/detach` and
`chrome.tabs.remove` effects are external: `detach`, `detachAll` and
`closeTab` swallow their errors in the source (tabs may already be
gone), so on the registry they are total functions; `attach` is modelled
at the point its debugger attach succeeded.  `detachAll` also reports
which tabs it issued a debugger detach for. -/

inductive TabStatus where
  | pending
  | running
  | extracting
  | done
  | error
deriving DecidableEq

structure TabState where
  tabId : Nat
  attached : Bool
  url : String
  title : String
  taskDescription : String
  status : TabStatus
  extractedData : String
  error : Option String
deriving DecidableEq

abbrev Registry := List (Nat × TabState)

/-- Model of `Map.get`. -/
def regGet (r : Registry) (tabId : Nat) : Option TabState :=
  (r.find? (fun p => p.1 == tabId)).map Prod.snd

/-- Model of `Map.set`: replace in place, else append (insertion order). -/
def regSet : Registry → Nat → TabState → Registry
  | [], k, v => [(k, v)]
  | (k', v') :: rest, k, v =>
    if k' == k then (k', v) :: rest else (k', v') :: regSet rest k v

/-- Model of `Map.delete`. -/
def regDelete (r : Registry) (tabId : Nat) : Registry :=
  r.filter (fun p => p.1 != tabId)

namespace TabManager

/-- Source `TabManager.attach(tabId)`: no-op when the registry already marks
the tab attached; otherwise mark it attached, registering an externally
created tab with `status: 'running'` when absent. -/
def attach (r : Registry) (tabId : Nat) : Registry :=
  match regGet r tabId with
  | some st =>
    if st.attached then r else regSet r tabId { st with attached := true }
  | none =>
    regSet r tabId
      { tabId := tabId, attached := true, url := "", title := "", taskDescription := ""
        status := .running, extractedData := "", error := none }

/-- Source `TabManager.detach(tabId)`: no-op unless the registry marks the tab
attached; the debugger detach error is swallowed. -/
def detach (r : Registry) (tabId : Nat) : Registry :=
  match regGet r tabId with
  | some st => if st.attached then regSet r tabId { st with attached := false } else r
  | none => r

/-- Source `TabManager.detachAll()`: issue a debugger detach for every attached
tab (second component) and clear the whole map. -/
def detachAll (r : Registry) : Registry × List Nat :=
  ([], (r.filter (fun p => p.2.attached)).map Prod.fst)

/-- Source `TabManager.closeTab(tabId)`: detach, remove the browser tab
(error swallowed), delete the record. -/
def closeTab (r : Registry) (tabId : Nat) : Registry :=
  regDelete (detach r tabId) tabId

/-- Source `TabManager.getAllStates()`. -/
def getAllStates (r : Registry) : List TabState := r.map Prod.snd

/-- Source `TabManager.size`. -/
def size (r : Registry) : Nat := r.length

/-- Source `TabManager.getState(tabId)`. -/
def getState (r : Registry) (tabId : Nat) : Option TabState := regGet r tabId

end TabManager

/-! ## Agent loops (`background/index.ts` : `runAgent`;
`research.ts` : `runSubTask`)

The LLM is an oracle `responses : Nat → LLMResponse` giving the response
of the i-th call; cancellation and the 90s sub-task wall clock are
predicates sampled at the top of each iteration, as the source checks
them.  A loop value is the pair (outcome, number of LLM calls made).
The `fuel` argument counts the remaining budget of the
`while (stepCount < MAX)` condition. -/

structure ToolCallModel where
  name : String
  summary : String
deriving DecidableEq

structure LLMResponse where
  content : String
  toolCalls : List ToolCallModel
deriving DecidableEq

inductive AgentOutcome where
  | stopped
  | finished (content : String)
  | completed (summary : String)
  | maxStepsReached (message : String)
deriving DecidableEq

/-- Does the i-th LLM response terminate the single-tab loop (no tool
calls, or a `task_complete` call among them)? -/
def agentTerminalAt (responses : Nat → LLMResponse) (i : Nat) : Bool :=
  (responses i).toolCalls.isEmpty
    || ((responses i).toolCalls.find? (fun tc => tc.name == "task_complete")).isSome

/-- Either early-exit condition of a single-tab iteration. -/
def agentExitAt (responses : Nat → LLMResponse) (abort : Nat → Bool) (i : Nat) : Bool :=
  abort i || agentTerminalAt responses i

/-- Source `background/index.ts` `runAgent`'s `while (stepCount < MAX_STEPS)`
loop: abort check, LLM call, zero-tool-call exit, `task_complete` exit,
otherwise execute the tools and iterate. -/
def agentLoop (responses : Nat → LLMResponse) (abort : Nat → Bool) :
    Nat → Nat → AgentOutcome × Nat
  | 0, _ => (.maxStepsReached "Reached maximum steps. Please try a more specific instruction.", 0)
  | fuel + 1, step =>
    if abort step then (.stopped, 0)
    else if (responses step).toolCalls.isEmpty then
      (.finished (jsOr (responses step).content "Task completed."), 1)
    else
      match (responses step).toolCalls.find? (fun tc => tc.name == "task_complete") with
      | some tc => (.completed (jsOr tc.summary "Task completed."), 1)
      | none =>
        ((agentLoop responses abort fuel (step + 1)).1,
          (agentLoop responses abort fuel (step + 1)).2 + 1)

def MAX_STEPS : Nat := 30

def runAgent (responses : Nat → LLMResponse) (abort : Nat → Bool) : AgentOutcome × Nat :=
  agentLoop responses abort MAX_STEPS 0

inductive SubTaskOutcome where
  | aborted
  | timedOut
  | finished (content : String)
  | extracted (data : String)
  | maxStepsReached
deriving DecidableEq

/-- Does the i-th LLM response terminate a sub-task loop (no tool calls,
or an `extract_data` call among them)? -/
def subTerminalAt (responses : Nat → LLMResponse) (i : Nat) : Bool :=
  (responses i).toolCalls.isEmpty
    || ((responses i).toolCalls.find? (fun tc => tc.name == "extract_data")).isSome

/-- Any early-exit condition of a sub-task iteration (abort, the 90s
wall-clock timeout, or a terminal response). -/
def subExitAt (responses : Nat → LLMResponse) (abort timeout : Nat → Bool) (i : Nat) : Bool :=
  abort i || timeout i || subTerminalAt responses i

/-- Source `research.ts` `runSubTask`'s `while (stepCount < MAX_SUB_TASK_STEPS)`
loop: abort check, timeout check, LLM call, zero-tool-call exit,
`extract_data` exit, otherwise iterate. -/
def subTaskLoop (responses : Nat → LLMResponse) (abort timeout : Nat → Bool) :
    Nat → Nat → SubTaskOutcome × Nat
  | 0, _ => (.maxStepsReached, 0)
  | fuel + 1, step =>
    if abort step then (.aborted, 0)
    else if timeout step then (.timedOut, 0)
    else if (responses step).toolCalls.isEmpty then
      (.finished (responses step).content, 1)
    else
      match (responses step).toolCalls.find? (fun tc => tc.name == "extract_data") with
      | some tc => (.extracted tc.summary, 1)
      | none =>
        ((subTaskLoop responses abort timeout fuel (step + 1)).1,
          (subTaskLoop responses abort timeout fuel (step + 1)).2 + 1)

def MAX_SUB_TASK_STEPS : Nat := 20

def runSubTaskLoop (responses : Nat → LLMResponse) (abort timeout : Nat → Bool) :
    SubTaskOutcome × Nat :=
  subTaskLoop responses abort timeout MAX_SUB_TASK_STEPS 0

/-- An oracle whose first response carries no tool calls, for the C8
witness. -/
def wResponses : Nat → LLMResponse := fun _ => { content := "All done", toolCalls := [] }

def wAbort : Nat → Bool := fun _ => false

/-! ## Properties and claim theorems -/

theorem strStarts_append (p rest : List Char) : strStarts p (p ++ rest) = true := by
  induction p with
  | nil => rfl
  | cons c cs ih => simp [strStarts, ih]

theorem hasSub_self_append (p rest : List Char) : hasSub p (p ++ rest) = true := by
  cases p with
  | nil =>
    cases rest with
    | nil => rfl
    | cons c cs => simp [hasSub, strStarts]
  | cons c cs =>
    have h := strStarts_append (c :: cs) rest
    simp only [List.cons_append, hasSub]
    simp only [List.cons_append] at h
    simp [h]

theorem hasSub_cons (p l : List Char) (c : Char) (h : hasSub p l = true) :
    hasSub p (c :: l) = true := by
  simp [hasSub, h]

theorem hasSub_append_left (a p l : List Char) (h : hasSub p l = true) :
    hasSub p (a ++ l) = true := by
  induction a with
  | nil => simpa using h
  | cons c cs ih => simpa [List.cons_append] using hasSub_cons p (cs ++ l) c ih

/-- A pattern sandwiched between two strings is always found by
`containsStr`. -/
theorem containsStr_sandwich (a pat b : String) :
    containsStr (a ++ pat ++ b) pat = true := by
  have hdata : (a ++ pat ++ b).data = a.data ++ (pat.data ++ b.data) := by
    simp [String.data_append, List.append_assoc]
  unfold containsStr
  rw [hdata]
  exact hasSub_append_left a.data pat.data (pat.data ++ b.data)
    (hasSub_self_append pat.data b.data)

theorem pruneAux_snd (K : Nat) (l : List Message) : (pruneAux K l).2 = toolCount l := by
  induction l with
  | nil => rfl
  | cons m rest ih =>
    cases hr : m.role <;>
      simp [pruneAux, toolCount, List.countP_cons, hr, ih, toolCount] at * <;>
      simp [hr, ih, toolCount] <;> omega

theorem toolCount_cons (m : Message) (l : List Message) :
    toolCount (m :: l) = (if m.role == Role.tool then 1 else 0) + toolCount l := by
  cases hm : m.role <;> simp [toolCount, List.countP_cons, hm] <;> omega

theorem toolCount_append (a b : List Message) :
    toolCount (a ++ b) = toolCount a + toolCount b := by
  simp [toolCount, List.countP_append]

theorem toolCount_reverse (l : List Message) : toolCount l.reverse = toolCount l := by
  induction l with
  | nil => rfl
  | cons m rest ih =>
    simp [List.reverse_cons, toolCount_append, toolCount_cons, ih]
    cases hm : m.role <;> simp [toolCount, List.countP_cons, hm] <;> omega

theorem keptIds_append (K : Nat) (l₁ l₂ : List Message) (tr : Nat) :
    keptIds K (l₁ ++ l₂) tr = keptIds K l₁ tr ++ keptIds K l₂ (tr + toolCount l₁) := by
  induction l₁ generalizing tr with
  | nil => simp [keptIds, toolCount]
  | cons m rest ih =>
    cases hm : m.role <;>
      simp [keptIds, hm, ih, toolCount_cons, Nat.add_assoc, Nat.add_comm, Nat.add_left_comm]

theorem mem_keptIds_mem_ids (K : Nat) (l : List Message) (tr x : Nat)
    (h : x ∈ keptIds K l tr) : x ∈ l.map Message.id := by
  induction l generalizing tr with
  | nil => simpa [keptIds] using h
  | cons m rest ih =>
    cases hm : m.role <;> simp [keptIds, hm] at h <;>
      first
      | (rcases h with h | h
         · simp [h]
         · exact List.mem_cons_of_mem _ (ih _ h))
      | (by_cases hc : tr < K <;> simp [hc] at h <;>
          first
          | (rcases h with h | h
             · simp [h]
             · exact List.mem_cons_of_mem _ (ih _ h))
          | exact List.mem_cons_of_mem _ (ih _ h))
      | (by_cases hc : tr ≤ K <;> simp [hc] at h <;>
          first
          | (rcases h with h | h
             · simp [h]
             · exact List.mem_cons_of_mem _ (ih _ h))
          | exact List.mem_cons_of_mem _ (ih _ h))

theorem mem_pruneAux_mem (K : Nat) (l : List Message) (m : Message)
    (h : m ∈ (pruneAux K l).1) : m ∈ l := by
  induction l with
  | nil => simpa [pruneAux] using h
  | cons x rest ih =>
    cases hx : x.role <;> simp [pruneAux, hx] at h <;>
      first
      | (rcases h with h | h
         · simp [h]
         · exact List.mem_cons_of_mem _ (ih h))
      | (split at h <;>
          first
          | (simp at h
             rcases h with h | h
             · simp [h]
             · exact List.mem_cons_of_mem _ (ih h))
          | (simp at h
             exact List.mem_cons_of_mem _ (ih h)))

theorem pruneHistory_eq_pruneAux (K : Nat) :
    ∀ (msgs : List Message), (msgs.map Message.id).Nodup →
      pruneHistory msgs K = (pruneAux K msgs).1 := by
  intro msgs
  induction msgs with
  | nil => intro _; rfl
  | cons m rest ih =>
    intro h
    rw [List.map_cons, List.nodup_cons] at h
    obtain ⟨hm, hrest⟩ := h
    have hkept : keptIds K (m :: rest).reverse 0
        = keptIds K rest.reverse 0 ++ keptIds K [m] (toolCount rest) := by
      rw [List.reverse_cons, keptIds_append]
      simp [toolCount_reverse]
    have hmA : m.id ∉ keptIds K rest.reverse 0 := by
      intro hx
      have hmem := mem_keptIds_mem_ids K rest.reverse 0 m.id hx
      rw [List.map_reverse, List.mem_reverse] at hmem
      exact hm hmem
    have htail : rest.filter (fun x => decide (x.id ∈ keptIds K (m :: rest).reverse 0))
        = rest.filter (fun x => decide (x.id ∈ keptIds K rest.reverse 0)) := by
      apply List.filter_congr
      intro x hx
      have hxB : x.id ∉ keptIds K [m] (toolCount rest) := by
        intro hxB
        have hmem := mem_keptIds_mem_ids K [m] (toolCount rest) x.id hxB
        simp at hmem
        exact hm (hmem ▸ List.mem_map_of_mem Message.id hx)
      rw [hkept, decide_eq_decide]
      simp [List.mem_append, hxB]
    have hunfold : pruneHistory (m :: rest) K
        = (m :: rest).filter (fun x => decide (x.id ∈ keptIds K (m :: rest).reverse 0)) := rfl
    rw [hunfold, List.filter_cons, htail]
    have hihr : rest.filter (fun x => decide (x.id ∈ keptIds K rest.reverse 0))
        = (pruneAux K rest).1 := ih hrest
    have hhead : (decide (m.id ∈ keptIds K (m :: rest).reverse 0))
        = decide (m.id ∈ keptIds K [m] (toolCount rest)) := by
      rw [hkept, decide_eq_decide]
      simp [List.mem_append, hmA]
    rw [hhead, hihr]
    cases hrole : m.role with
    | user => simp [keptIds, pruneAux, hrole]
    | tool =>
      by_cases hc : toolCount rest < K <;>
        simp [keptIds, pruneAux, hrole, hc, pruneAux_snd]
    | assistant =>
      by_cases hc : toolCount rest ≤ K <;>
        simp [keptIds, pruneAux, hrole, hc, pruneAux_snd]

theorem pruneAux_mem_getD (K : Nat) :
    ∀ (l : List Message), (l.map Message.id).Nodup →
      ∀ i, i < l.length →
        (l.getD i mdefault ∈ (pruneAux K l).1 ↔
          (l.getD i mdefault).role = .user
          ∨ ((l.getD i mdefault).role = .tool ∧ toolCount (l.drop (i + 1)) < K)
          ∨ ((l.getD i mdefault).role = .assistant ∧ toolCount (l.drop (i + 1)) ≤ K)) := by
  intro l
  induction l with
  | nil => intro _ i hi; simp at hi
  | cons m rest ih =>
    intro h i hi
    rw [List.map_cons, List.nodup_cons] at h
    obtain ⟨hm, hrest⟩ := h
    cases i with
    | zero =>
      simp only [List.getD_cons_zero, List.drop_succ_cons, List.drop_zero]
      have hnotin : m ∉ (pruneAux K rest).1 := by
        intro hx
        exact hm (List.mem_map_of_mem Message.id (mem_pruneAux_mem K rest m hx))
      cases hrole : m.role with
      | user => simp [pruneAux, hrole]
      | tool =>
        by_cases hc : toolCount rest < K <;>
          simp [pruneAux, hrole, hc, pruneAux_snd, hnotin]
      | assistant =>
        by_cases hc : toolCount rest ≤ K <;>
          simp [pruneAux, hrole, hc, pruneAux_snd, hnotin]
    | succ i =>
      simp only [List.getD_cons_succ, List.drop_succ_cons]
      have hi' : i < rest.length := by simpa using hi
      have hxrest : rest.getD i mdefault ∈ rest := by
        rw [List.getD_eq_getElem rest mdefault hi']
        exact List.getElem_mem hi'
      have hne : rest.getD i mdefault ≠ m := by
        intro he
        exact hm (he ▸ List.mem_map_of_mem Message.id hxrest)
      have hform : ∃ pre : List Message,
          (pruneAux K (m :: rest)).1 = pre ++ (pruneAux K rest).1 ∧ ∀ x ∈ pre, x = m := by
        cases hrole : m.role with
        | user => exact ⟨[m], by simp [pruneAux, hrole], by simp⟩
        | tool =>
          by_cases hc : (pruneAux K rest).2 < K
          · exact ⟨[m], by simp [pruneAux, hrole, hc], by simp⟩
          · exact ⟨[], by simp [pruneAux, hrole, hc], by simp⟩
        | assistant =>
          by_cases hc : (pruneAux K rest).2 ≤ K
          · exact ⟨[m], by simp [pruneAux, hrole, hc], by simp⟩
          · exact ⟨[], by simp [pruneAux, hrole, hc], by simp⟩
      obtain ⟨pre, hpre, hprem⟩ := hform
      have hstep : rest.getD i mdefault ∈ (pruneAux K (m :: rest)).1 ↔
          rest.getD i mdefault ∈ (pruneAux K rest).1 := by
        rw [hpre]
        simp only [List.mem_append]
        constructor
        · rintro (hx | hx)
          · exact absurd (hprem _ hx) hne
          · exact hx
        · exact fun hx => Or.inr hx
      rw [hstep]
      exact ih hrest i hi'

/-- C1 (amended): `pruneHistory` (default K = 6) keeps every `user`
message, keeps a `tool` message iff it is one of the K most recent tool
messages (fewer than K tool messages occur after it), and keeps an
`assistant` message — regardless of whether it carries tool calls — iff
at most K tool messages occur after it.  Stated positionally for any
transcript whose message ids are distinct (ids are UUIDs in the
source). -/
theorem pruneHistory_keeps_iff (K : Nat) (msgs : List Message)
    (h : (msgs.map Message.id).Nodup) (i : Nat) (hi : i < msgs.length) :
    msgs.getD i mdefault ∈ pruneHistory msgs K ↔
      (msgs.getD i mdefault).role = .user
      ∨ ((msgs.getD i mdefault).role = .tool ∧ toolCount (msgs.drop (i + 1)) < K)
      ∨ ((msgs.getD i mdefault).role = .assistant ∧ toolCount (msgs.drop (i + 1)) ≤ K) := by
  rw [pruneHistory_eq_pruneAux K msgs h]
  exact pruneAux_mem_getD K msgs h i hi

/-- C1 (counterexample): an assistant message with `hasToolCalls = false`
that is followed by seven tool messages is dropped by `pruneHistory`
with the default K = 6, contradicting the claim that assistant messages
without tool calls are never dropped. -/
theorem pruneHistory_drops_plain_assistant :
    (⟨0, Role.assistant, false⟩ : Message) ∈ cexMessages ∧
    (⟨0, Role.assistant, false⟩ : Message).hasToolCalls = false ∧
    (⟨0, Role.assistant, false⟩ : Message) ∉ pruneHistory cexMessages 6 := by
  refine ⟨by decide, rfl, by decide⟩

/-- C1 (witness): the amended pruning characterization evaluated on a
concrete three-message transcript at index 0. -/
theorem pruneHistory_keeps_iff_witness :
    (wMessages.map Message.id).Nodup ∧ 0 < wMessages.length ∧
    (wMessages.getD 0 mdefault ∈ pruneHistory wMessages 6 ↔
      (wMessages.getD 0 mdefault).role = .user
      ∨ ((wMessages.getD 0 mdefault).role = .tool ∧ toolCount (wMessages.drop (0 + 1)) < 6)
      ∨ ((wMessages.getD 0 mdefault).role = .assistant ∧ toolCount (wMessages.drop (0 + 1)) ≤ 6)) :=
  ⟨by decide, by decide, pruneHistory_keeps_iff 6 wMessages (by decide) 0 (by decide)⟩

/-- C2 (counterexample): `formatSnapshot` performs no password/hidden
redaction of its own — fed a snapshot containing an input element of
type `password` with a stored value, it prints that value verbatim in
the element's `(current: "...")` annotation.  This refutes the claim
that the formatter never emits the value of a password or hidden
input. -/
theorem formatSnapshot_leaks_password_value :
    pwElement.type = some "password"
    ∧ pwElement.value = some "S3CRETVAL"
    ∧ pwElement ∈ pwSnapshot.elements
    ∧ containsStr (formatSnapshot pwSnapshot) "S3CRETVAL" = true := by
  refine ⟨rfl, rfl, by decide, by decide⟩

/-- C2 (amended): the snapshot producer stores a `value` only for
input-like elements, and an input-like element that is not
contenteditable can never be emitted with type `password` or `hidden`
(the `processElement` guard skips such nodes).  Contenteditable nodes
bypass the guard, and non-input elements may carry a `type` attribute
string unfiltered — but those never carry a stored `value`.  The
formatter itself performs no further filtering, so redaction rests
entirely on this producer guard. -/
theorem processElement_password_guard (node : DomNode) (c : Nat) (e : SnapshotElement)
    (h : (processElement node c).1 = some e) :
    (e.value.isSome = true → e.isInput = true)
    ∧ (e.isInput = true → nodeContentEditable node = false →
        e.type ≠ some "password" ∧ e.type ≠ some "hidden") := by
  unfold processElement at h
  split at h
  · exact absurd h (by simp)
  split at h
  · exact absurd h (by simp)
  split at h
  · exact absurd h (by simp)
  split at h
  · exact absurd h (by simp)
  split at h
  · exact absurd h (by simp)
  split at h
  · exact absurd h (by simp)
  split at h
  · exact absurd h (by simp)
  split at h
  · exact absurd h (by simp)
  rename_i htag hguard hnoise htabonly hcatch hvis hnear hname
  simp only [Prod.fst] at h
  rw [Option.some_inj] at h
  subst h
  constructor
  · intro hv
    by_cases hin : nodeIsInput node = true
    · simpa using hin
    · simp only [Bool.not_eq_true] at hin
      simp [hin] at hv
  · intro hin hce
    simp only at hin
    have hnotpw : (nodeInputType node == "password" || nodeInputType node == "hidden") = false := by
      by_contra hcontra
      apply hguard
      simp only [Bool.not_eq_false] at hcontra
      simp [hce, hin, hcontra]
    simp only [Bool.or_eq_false_iff, beq_eq_false_iff_ne] at hnotpw
    constructor
    · simp only
      split
      · simp
      · simpa using hnotpw.1
    · simp only
      split
      · simp
      · simpa using hnotpw.2

/-- C2 (witness): the producer guard evaluated on a concrete text
input. -/
theorem processElement_password_guard_witness :
    (processElement witInputNode 1).1 = some witInputElement
    ∧ witInputElement.type ≠ some "password" ∧ witInputElement.type ≠ some "hidden" :=
  ⟨by decide,
   (processElement_password_guard witInputNode 1 witInputElement (by decide)).2
     (by decide) (by decide)⟩

/-- C3: for a UID absent from the snapshot, `clickElement` returns (never
throws) an error-shaped string that contains the UID, and no debugger
attach or CDP send has occurred (the `errorReturn` branch precedes
`ensureAttached` and every `cdp` call in the source). -/
theorem clickElement_missing_uid (uid : Nat) (snapshot : PageSnapshot)
    (h : ∀ e ∈ snapshot.elements, e.uid ≠ uid) :
    clickElement uid snapshot
      = .errorReturn ("Error: Element with UID " ++ toString uid
          ++ " not found in snapshot. Take a new snapshot first.")
    ∧ containsStr ("Error: Element with UID " ++ toString uid
          ++ " not found in snapshot. Take a new snapshot first.") (toString uid) = true := by
  have hfind : snapshot.elements.find? (fun e => e.uid == uid) = none := by
    rw [List.find?_eq_none]
    intro e he
    simpa using h e he
  constructor
  · unfold clickElement
    rw [hfind]
  · exact containsStr_sandwich "Error: Element with UID " (toString uid)
      " not found in snapshot. Take a new snapshot first."

/-- C3 (witness): `clickElement` applied to UID 42, absent from a
concrete snapshot. -/
theorem clickElement_missing_uid_witness :
    (∀ e ∈ wClickSnapshot.elements, e.uid ≠ 42) ∧
    (clickElement 42 wClickSnapshot
      = .errorReturn ("Error: Element with UID " ++ toString 42
          ++ " not found in snapshot. Take a new snapshot first.")
    ∧ containsStr ("Error: Element with UID " ++ toString 42
          ++ " not found in snapshot. Take a new snapshot first.") (toString 42) = true) :=
  ⟨by decide, clickElement_missing_uid 42 wClickSnapshot (by decide)⟩

/-- C9: `typeText` never requires `isInput` — whichever element the UID
resolves to (flagged as input or not), it runs the
scroll/focus/clear/insertText sequence and returns the `Typed ...`
confirmation; only an absent UID produces an error string. -/
theorem typeText_ignores_isInput (text : String) (uid : Nat) (snapshot : PageSnapshot) :
    (∀ el, snapshot.elements.find? (fun e => e.uid == uid) = some el →
      typeText text uid snapshot
        = .typed (typeTextEffects text)
            ("Typed \"" ++ text ++ "\" into " ++ el.tag ++ " \"" ++ el.name ++ "\""))
    ∧ ((∀ e ∈ snapshot.elements, e.uid ≠ uid) →
      typeText text uid snapshot
        = .errorReturn ("Error: Element UID " ++ toString uid
            ++ " not found. Take a new snapshot.")) := by
  constructor
  · intro el hfind
    unfold typeText
    rw [hfind]
  · intro h
    have hfind : snapshot.elements.find? (fun e => e.uid == uid) = none := by
      rw [List.find?_eq_none]
      intro e he
      simpa using h e he
    unfold typeText
    rw [hfind]

/-- C9 (witness): typing into the non-`isInput` element of a concrete
snapshot still yields the `Typed ...` confirmation. -/
theorem typeText_ignores_isInput_witness :
    (wTypeSnapshot.elements.find? (fun e => e.uid == 3)
        = some { witInputElement with uid := 3, tag := "div", name := "Message", isInput := false })
    ∧ ({ witInputElement with uid := 3, tag := "div", name := "Message", isInput := false } : SnapshotElement).isInput = false
    ∧ typeText "hello" 3 wTypeSnapshot
        = .typed (typeTextEffects "hello") ("Typed \"hello\" into div \"Message\"") :=
  ⟨by decide, rfl,
   (typeText_ignores_isInput "hello" 3 wTypeSnapshot).1
     { witInputElement with uid := 3, tag := "div", name := "Message", isInput := false }
     (by decide)⟩

/-- C4: `decomposeTask` caps `subTasks` at `MAX_RESEARCH_TABS = 5`;
fewer than 2 parsed sub-tasks force `isResearch = false` with `subTasks`
emptied (the reasoning is kept); a parse failure yields the
`isResearch = false` fallback plan; and a research run whose plan has
fewer than 2 sub-tasks creates no tabs and launches no sub-task
loops. -/
theorem decomposeTask_guarantees (parsed : Option ResearchPlan) :
    (decomposeTask parsed).subTasks.length ≤ 5
    ∧ (∀ plan, parsed = some plan → plan.subTasks.length < 2 →
        decomposeTask parsed
          = { isResearch := false, reasoning := plan.reasoning, subTasks := [] })
    ∧ (parsed = none →
        decomposeTask parsed
          = { isResearch := false, reasoning := "Failed to parse decomposition", subTasks := [] })
    ∧ (∀ plan : ResearchPlan, plan.subTasks.length < 2 →
        researchTabsAndLoops plan = (0, 0)) := by
  refine ⟨?_, ?_, ?_, ?_⟩
  · cases parsed with
    | none => simp [decomposeTask]
    | some plan =>
      by_cases hlong : 5 < plan.subTasks.length
      · simp only [decomposeTask, MAX_RESEARCH_TABS, if_pos hlong]
        split
        · simp
        · simp only [List.length_take]
          omega
      · simp only [decomposeTask, MAX_RESEARCH_TABS, if_neg hlong]
        split
        · simp
        · simp only
          omega
  · intro plan hp hfew
    subst hp
    have hnotlong : ¬ plan.subTasks.length > MAX_RESEARCH_TABS := by
      simp [MAX_RESEARCH_TABS]; omega
    simp [decomposeTask, hnotlong, hfew]
  · intro hp
    subst hp
    rfl
  · intro plan hfew
    have : researchProceeds plan = false := by
      simp [researchProceeds]
      omega
    simp [researchTabsAndLoops, this]

/-- C4 (witness): the guarantees evaluated at a concrete one-sub-task
plan. -/
theorem decomposeTask_guarantees_witness :
    ((some { isResearch := true, reasoning := "compare", subTasks := [⟨"a", "https://a", "x"⟩] }
        : Option ResearchPlan) = some { isResearch := true, reasoning := "compare", subTasks := [⟨"a", "https://a", "x"⟩] })
    ∧ ([⟨"a", "https://a", "x"⟩] : List SubTask).length < 2
    ∧ decomposeTask (some { isResearch := true, reasoning := "compare", subTasks := [⟨"a", "https://a", "x"⟩] })
        = { isResearch := false, reasoning := "compare", subTasks := [] } :=
  ⟨rfl, by decide,
   (decomposeTask_guarantees (some { isResearch := true, reasoning := "compare", subTasks := [⟨"a", "https://a", "x"⟩] })).2.1
     { isResearch := true, reasoning := "compare", subTasks := [⟨"a", "https://a", "x"⟩] }
     rfl (by decide)⟩

/-- C5: the key map sends the six named keys to their fixed virtual-key
codes and every other key to `charCodeAt(0)`; with `key = "Enter"` and a
URL change observed during the ≤10-poll (3s) window the result is the
"Pressed Enter — page navigated" message (after the ≤8s load wait);
otherwise — any other key, or Enter without navigation — the result is
exactly `"Pressed key: <key>"` and the load wait never runs. -/
theorem pressKey_spec (key urlBefore : String) (polls : List String)
    (hpolls : polls.length ≤ 10) :
    ((keyInfo "Enter").vk = some 13 ∧ (keyInfo "Tab").vk = some 9
      ∧ (keyInfo "Escape").vk = some 27 ∧ (keyInfo "ArrowDown").vk = some 40
      ∧ (keyInfo "ArrowUp").vk = some 38 ∧ (keyInfo "Backspace").vk = some 8)
    ∧ (keyMap key = none → (keyInfo key).vk = charCodeAt0 key)
    ∧ (key = "Enter" → waitForNavigation urlBefore polls = true →
        containsStr (pressKey key urlBefore polls).message "Pressed Enter — page navigated" = true
        ∧ (pressKey key urlBefore polls).waitedForLoad = true)
    ∧ ((key ≠ "Enter" ∨ waitForNavigation urlBefore polls = false) →
        (pressKey key urlBefore polls).message = "Pressed key: " ++ key
        ∧ (pressKey key urlBefore polls).waitedForLoad = false) := by
  refine ⟨⟨rfl, rfl, rfl, rfl, rfl, rfl⟩, ?_, ?_, ?_⟩
  · intro hmap
    unfold keyInfo
    rw [hmap]
  · intro hkey hnav
    subst hkey
    simp only [pressKey, hnav]
    constructor
    · decide
    · rfl
  · intro hother
    rcases hother with hne | hnonav
    · have hb : (key == "Enter") = false := by simpa using hne
      simp [pressKey, hb]
    · by_cases hkey : key == "Enter" <;> simp [pressKey, hkey, hnonav]

/-- C5 (witness): the specification evaluated for Enter with a
navigation observed on the second poll. -/
theorem pressKey_spec_witness :
    (["", "https://example.com/results"] : List String).length ≤ 10
    ∧ waitForNavigation "https://example.com" ["", "https://example.com/results"] = true
    ∧ containsStr (pressKey "Enter" "https://example.com" ["", "https://example.com/results"]).message
        "Pressed Enter — page navigated" = true
    ∧ (pressKey "Enter" "https://example.com" ["", "https://example.com/results"]).waitedForLoad = true :=
  ⟨by decide, by decide,
   ((pressKey_spec "Enter" "https://example.com" ["", "https://example.com/results"]
      (by decide)).2.2.1 rfl (by decide)).1,
   ((pressKey_spec "Enter" "https://example.com" ["", "https://example.com/results"]
      (by decide)).2.2.1 rfl (by decide)).2⟩

/-- C6 (counterexample): requesting `"x"` — option 1's `value` matches
exactly, but the single first-pass loop also accepts option 0 by its
visible text and, scanning in order, picks index 0.  Matching is
therefore not "value first, then text" across the option list, refuting
the claimed priority. -/
theorem selectOption_not_value_first :
    ((cexSelect.options.get? 1).map PageOption.value = some "x")
    ∧ ((cexSelect.options.get? 0).map PageOption.value ≠ some "x")
    ∧ (selectOptionInPage "x" (some cexSelect)).el
        = some { cexSelect with selectedIndex := 0 }
    ∧ (selectOptionInPage "x" (some cexSelect)).message = "Selected: x" := by
  refine ⟨rfl, by decide, by decide, by decide⟩

/-- C6 (amended): `selectOption` rejects a uid whose snapshot element is
not a select with a diagnostic string; in the page, the requested value
is matched in a first pass accepting, per option, either `option.value`
equality or exact trimmed-lowercased visible-text equality, then in a
second pass by lowercase substring of the option text; if no option
matches, the returned string lists the available option texts and no
events fire; on success `selectedIndex` is assigned to the matched
option and `input` + `change` fire. -/
theorem selectOption_spec (uid : Nat) (value : String) (snapshot : PageSnapshot)
    (dom : Option PageSelect) (el : PageSelect) :
    (∀ e, snapshot.elements.find? (fun e => e.uid == uid) = some e →
      e.isSelect = false → e.tag ≠ "select" →
      (selectOption uid value snapshot dom).1
        = "Error: Element UID " ++ toString uid ++ " is a " ++ e.tag
          ++ ", not a <select>. Use click() instead.")
    ∧ (el.tagName = "SELECT" →
        (∀ i, el.options.findIdx? (optionMatchExact value) = some i →
          selectOptionInPage value (some el)
            = ⟨"Selected: " ++ ((el.options.get? i).map PageOption.text).getD "",
               some { el with selectedIndex := (i : Int) }, true⟩)
        ∧ (el.options.findIdx? (optionMatchExact value) = none →
            ∀ i, el.options.findIdx? (optionMatchSub value) = some i →
              selectOptionInPage value (some el)
                = ⟨"Selected: " ++ ((el.options.get? i).map PageOption.text).getD "",
                   some { el with selectedIndex := (i : Int) }, true⟩)
        ∧ (el.options.findIdx? (optionMatchExact value) = none →
            el.options.findIdx? (optionMatchSub value) = none →
              selectOptionInPage value (some el)
                = ⟨"Option not found: " ++ value ++ ". Available: "
                    ++ String.intercalate ", " (el.options.map PageOption.text),
                   some el, false⟩)) := by
  constructor
  · intro e hfind hsel htag
    unfold selectOption
    rw [hfind]
    dsimp only
    have hcond : (!e.isSelect && e.tag != "select") = true := by
      simp [hsel, htag]
    rw [if_pos hcond]
  · intro htagName
    have hneg : ¬ ((el.tagName != "SELECT") = true) := by simp [htagName]
    refine ⟨?_, ?_, ?_⟩
    · intro i hidx
      unfold selectOptionInPage
      dsimp only
      rw [if_neg hneg, hidx]
      rfl
    · intro hnone i hidx
      unfold selectOptionInPage
      dsimp only
      rw [if_neg hneg, hnone, hidx]
      rfl
    · intro hnone hnone2
      unfold selectOptionInPage
      dsimp only
      rw [if_neg hneg, hnone, hnone2]

/-- C6 (witness): the amended matching evaluated on a concrete select —
`"price"` matches option 1 by value in the first pass. -/
theorem selectOption_spec_witness :
    wSelect.tagName = "SELECT"
    ∧ wSelect.options.findIdx? (optionMatchExact "price") = some 1
    ∧ selectOptionInPage "price" (some wSelect)
        = ⟨"Selected: " ++ ((wSelect.options.get? 1).map PageOption.text).getD "",
           some { wSelect with selectedIndex := (1 : Int) }, true⟩ :=
  ⟨rfl, by decide,
   (((selectOption_spec 0 "price" ⟨"", "", [], ""⟩ none wSelect).2 rfl).1 1 (by decide))⟩

theorem regGet_regSet_self (r : Registry) (k : Nat) (v : TabState) :
    regGet (regSet r k v) k = some v := by
  induction r with
  | nil => simp [regSet, regGet, List.find?]
  | cons p rest ih =>
    obtain ⟨k', v'⟩ := p
    by_cases hk : k' == k
    · simp [regSet, hk, regGet, List.find?, hk]
    · simp only [regSet, hk, if_false, Bool.false_eq_true]
      simp only [regGet, List.find?, hk] at ih ⊢
      exact ih

theorem regGet_regDelete_self (r : Registry) (k : Nat) :
    regGet (regDelete r k) k = none := by
  have hf : (regDelete r k).find? (fun p => p.1 == k) = none := by
    rw [List.find?_eq_none]
    intro p hp
    rw [regDelete, List.mem_filter] at hp
    simpa using hp.2
  simp [regGet, hf]

theorem regDelete_regDelete (r : Registry) (k : Nat) :
    regDelete (regDelete r k) k = regDelete r k := by
  simp [regDelete, List.filter_filter]

/-- C7: registry attach/detach/detachAll/closeTab are idempotent — a
second application of the same operation leaves the registry unchanged
(and `detach`/`closeTab` are total, the source swallowing errors for
tabs that are already detached or gone). -/
theorem tabManager_idempotent (r : Registry) (t : Nat) :
    TabManager.attach (TabManager.attach r t) t = TabManager.attach r t
    ∧ TabManager.detach (TabManager.detach r t) t = TabManager.detach r t
    ∧ (TabManager.detachAll (TabManager.detachAll r).1).1 = (TabManager.detachAll r).1
    ∧ TabManager.closeTab (TabManager.closeTab r t) t = TabManager.closeTab r t := by
  refine ⟨?_, ?_, rfl, ?_⟩
  · unfold TabManager.attach
    cases hget : regGet r t with
    | none =>
      rw [regGet_regSet_self]
      simp
    | some st =>
      by_cases hatt : st.attached
      · simp [hget, hatt]
      · simp only [hget, hatt, if_false, Bool.false_eq_true]
        rw [regGet_regSet_self]
        simp
  · unfold TabManager.detach
    cases hget : regGet r t with
    | none => simp [hget]
    | some st =>
      by_cases hatt : st.attached
      · simp only [hget, hatt, if_true]
        rw [regGet_regSet_self]
        simp
      · simp [hget, hatt]
  · unfold TabManager.closeTab
    have hd : TabManager.detach (regDelete (TabManager.detach r t) t) t
        = regDelete (TabManager.detach r t) t := by
      unfold TabManager.detach
      rw [regGet_regDelete_self]
    rw [hd, regDelete_regDelete]

/-- C10: `detachAll` erases every tab record (it calls `tabs.clear()`),
not merely the attachment flags: afterwards `getAllStates` is empty,
`size` is 0, and no tab — attached or not — retains a status or
extracted data. -/
theorem detachAll_clears_registry (r : Registry) :
    TabManager.getAllStates (TabManager.detachAll r).1 = []
    ∧ TabManager.size (TabManager.detachAll r).1 = 0
    ∧ ∀ t, TabManager.getState (TabManager.detachAll r).1 t = none :=
  ⟨rfl, rfl, fun _ => rfl⟩

theorem agentLoop_calls (responses : Nat → LLMResponse) (abort : Nat → Bool) :
    ∀ fuel step,
      ((List.range' step fuel).find? (agentExitAt responses abort) = none →
        (agentLoop responses abort fuel step).2 = fuel)
      ∧ (∀ k, (List.range' step fuel).find? (agentExitAt responses abort) = some k →
        (agentLoop responses abort fuel step).2 = (k - step) + (if abort k then 0 else 1)) := by
  intro fuel
  induction fuel with
  | zero =>
    intro step
    exact ⟨fun _ => rfl, fun k hk => by simp at hk⟩
  | succ fuel ih =>
    intro step
    have hrange : List.range' step (fuel + 1) = step :: List.range' (step + 1) fuel := rfl
    by_cases hexit : agentExitAt responses abort step = true
    · have hfound : (List.range' step (fuel + 1)).find? (agentExitAt responses abort)
          = some step := by
        rw [hrange]
        exact List.find?_cons_of_pos _ hexit
      constructor
      · intro hnone
        rw [hfound] at hnone
        exact absurd hnone (by simp)
      · intro k hk
        rw [hfound] at hk
        have hks : k = step := by
          have := hk
          simp at this
          omega
        subst hks
        rw [agentExitAt] at hexit
        by_cases habort : abort k
        · simp [agentLoop, habort]
        · have hterm : agentTerminalAt responses k = true := by
            simp [habort] at hexit
            exact hexit
          rw [agentTerminalAt] at hterm
          by_cases hempty : (responses k).toolCalls.isEmpty
          · simp [agentLoop, habort, hempty]
          · have hsome : ((responses k).toolCalls.find?
                (fun tc => tc.name == "task_complete")).isSome = true := by
              rw [Bool.or_eq_true] at hterm
              rcases hterm with h | h
              · exact absurd h hempty
              · exact h
            obtain ⟨tc, htc⟩ := Option.isSome_iff_exists.mp hsome
            simp [agentLoop, habort, hempty, htc]
    · have hskip : (List.range' step (fuel + 1)).find? (agentExitAt responses abort)
          = (List.range' (step + 1) fuel).find? (agentExitAt responses abort) := by
        rw [hrange]
        exact List.find?_cons_of_neg _ (by simpa using hexit)
      have hx : agentExitAt responses abort step = false := by simpa using hexit
      simp only [agentExitAt, Bool.or_eq_false_iff] at hx
      obtain ⟨habort, hterm⟩ := hx
      rw [agentTerminalAt, Bool.or_eq_false_iff] at hterm
      obtain ⟨hempty, hsome⟩ := hterm
      have hfind : (responses step).toolCalls.find? (fun tc => tc.name == "task_complete")
          = none := Option.not_isSome_iff_eq_none.mp (by simp [hsome])
      have hloop : (agentLoop responses abort (fuel + 1) step).2
          = (agentLoop responses abort fuel (step + 1)).2 + 1 := by
        simp [agentLoop, habort, hempty, hfind]
      constructor
      · intro hnone
        rw [hskip] at hnone
        rw [hloop, (ih (step + 1)).1 hnone]
      · intro k hk
        rw [hskip] at hk
        have hge : step + 1 ≤ k := by
          have hmem := List.mem_of_find?_eq_some hk
          exact (List.mem_range'_1.mp hmem).1
        rw [hloop, (ih (step + 1)).2 k hk]
        by_cases hak : abort k <;> simp only [hak, if_true, if_false] <;> omega

theorem agentLoop_maxSteps (responses : Nat → LLMResponse) (abort : Nat → Bool) :
    ∀ fuel step,
      (List.range' step fuel).find? (agentExitAt responses abort) = none →
      (agentLoop responses abort fuel step).1
        = .maxStepsReached "Reached maximum steps. Please try a more specific instruction." := by
  intro fuel
  induction fuel with
  | zero => intro step _; rfl
  | succ fuel ih =>
    intro step hnone
    have hrange : List.range' step (fuel + 1) = step :: List.range' (step + 1) fuel := rfl
    rw [hrange] at hnone
    have hhead : agentExitAt responses abort step = false := by
      by_contra hcontra
      rw [List.find?_cons_of_pos _ (by simpa using hcontra)] at hnone
      exact Option.noConfusion hnone
    rw [List.find?_cons_of_neg _ (by simp [hhead])] at hnone
    rw [agentExitAt, Bool.or_eq_false_iff] at hhead
    obtain ⟨habort, hterm⟩ := hhead
    rw [agentTerminalAt, Bool.or_eq_false_iff] at hterm
    obtain ⟨hempty, hsome⟩ := hterm
    have hfind : (responses step).toolCalls.find? (fun tc => tc.name == "task_complete") = none :=
      Option.not_isSome_iff_eq_none.mp (by simp [hsome])
    have hloop : (agentLoop responses abort (fuel + 1) step).1
        = (agentLoop responses abort fuel (step + 1)).1 := by
      simp [agentLoop, habort, hempty, hfind]
    rw [hloop]
    exact ih (step + 1) hnone

theorem subTaskLoop_calls (responses : Nat → LLMResponse) (abort timeout : Nat → Bool) :
    ∀ fuel step,
      ((List.range' step fuel).find? (subExitAt responses abort timeout) = none →
        (subTaskLoop responses abort timeout fuel step).2 = fuel)
      ∧ (∀ k, (List.range' step fuel).find? (subExitAt responses abort timeout) = some k →
        (subTaskLoop responses abort timeout fuel step).2
          = (k - step) + (if abort k || timeout k then 0 else 1)) := by
  intro fuel
  induction fuel with
  | zero =>
    intro step
    exact ⟨fun _ => rfl, fun k hk => by simp at hk⟩
  | succ fuel ih =>
    intro step
    have hrange : List.range' step (fuel + 1) = step :: List.range' (step + 1) fuel := rfl
    by_cases hexit : subExitAt responses abort timeout step = true
    · have hfound : (List.range' step (fuel + 1)).find? (subExitAt responses abort timeout)
          = some step := by
        rw [hrange]
        exact List.find?_cons_of_pos _ hexit
      constructor
      · intro hnone
        rw [hfound] at hnone
        exact absurd hnone (by simp)
      · intro k hk
        rw [hfound] at hk
        have hks : k = step := by
          have := hk
          simp at this
          omega
        subst hks
        rw [subExitAt] at hexit
        by_cases habort : abort k
        · simp [subTaskLoop, habort]
        · by_cases htime : timeout k
          · simp [subTaskLoop, habort, htime]
          · have hterm : subTerminalAt responses k = true := by
              simp [habort, htime] at hexit
              exact hexit
            rw [subTerminalAt] at hterm
            by_cases hempty : (responses k).toolCalls.isEmpty
            · simp [subTaskLoop, habort, htime, hempty]
            · have hsome : ((responses k).toolCalls.find?
                  (fun tc => tc.name == "extract_data")).isSome = true := by
                rw [Bool.or_eq_true] at hterm
                rcases hterm with h | h
                · exact absurd h hempty
                · exact h
              obtain ⟨tc, htc⟩ := Option.isSome_iff_exists.mp hsome
              simp [subTaskLoop, habort, htime, hempty, htc]
    · have hskip : (List.range' step (fuel + 1)).find? (subExitAt responses abort timeout)
          = (List.range' (step + 1) fuel).find? (subExitAt responses abort timeout) := by
        rw [hrange]
        exact List.find?_cons_of_neg _ (by simpa using hexit)
      have hx : subExitAt responses abort timeout step = false := by simpa using hexit
      simp only [subExitAt, Bool.or_eq_false_iff] at hx
      obtain ⟨⟨habort, htime⟩, hterm⟩ := hx
      rw [subTerminalAt, Bool.or_eq_false_iff] at hterm
      obtain ⟨hempty, hsome⟩ := hterm
      have hfind : (responses step).toolCalls.find? (fun tc => tc.name == "extract_data")
          = none := Option.not_isSome_iff_eq_none.mp (by simp [hsome])
      have hloop : (subTaskLoop responses abort timeout (fuel + 1) step).2
          = (subTaskLoop responses abort timeout fuel (step + 1)).2 + 1 := by
        simp [subTaskLoop, habort, htime, hempty, hfind]
      constructor
      · intro hnone
        rw [hskip] at hnone
        rw [hloop, (ih (step + 1)).1 hnone]
      · intro k hk
        rw [hskip] at hk
        have hge : step + 1 ≤ k := by
          have hmem := List.mem_of_find?_eq_some hk
          exact (List.mem_range'_1.mp hmem).1
        rw [hloop, (ih (step + 1)).2 k hk]
        by_cases hak : abort k || timeout k <;> simp only [hak, if_true, if_false] <;> omega

/-- C8: the single-tab agent loop makes at most 30 LLM calls, and when
no iteration exits early it terminates with the "Reached maximum steps"
assistant message after exactly 30 calls; a research sub-task loop makes
at most 20 LLM calls; and when a run first exits at step `k` (terminal
tool, zero-tool response, or cancellation/timeout, which precede the
call), the total LLM-call count is `k` or `k + 1` — no LLM call is made
after the transition to done. -/
theorem agent_step_caps (responses subResponses : Nat → LLMResponse)
    (abort subAbort subTimeout : Nat → Bool) :
    (runAgent responses abort).2 ≤ 30
    ∧ ((List.range' 0 30).find? (agentExitAt responses abort) = none →
        runAgent responses abort
          = (.maxStepsReached "Reached maximum steps. Please try a more specific instruction.",
             30))
    ∧ (∀ k, (List.range' 0 30).find? (agentExitAt responses abort) = some k →
        (runAgent responses abort).2 = k + (if abort k then 0 else 1))
    ∧ (runSubTaskLoop subResponses subAbort subTimeout).2 ≤ 20
    ∧ (∀ k, (List.range' 0 20).find? (subExitAt subResponses subAbort subTimeout) = some k →
        (runSubTaskLoop subResponses subAbort subTimeout).2
          = k + (if subAbort k || subTimeout k then 0 else 1)) := by
  have hc := agentLoop_calls responses abort 30 0
  have hs := subTaskLoop_calls subResponses subAbort subTimeout 20 0
  refine ⟨?_, ?_, ?_, ?_, ?_⟩
  · cases hfind : (List.range' 0 30).find? (agentExitAt responses abort) with
    | none =>
      have h2 := hc.1 hfind
      unfold runAgent MAX_STEPS
      omega
    | some k =>
      have hk30 : k < 30 := by
        have hmem := List.mem_of_find?_eq_some hfind
        have := List.mem_range'_1.mp hmem
        omega
      have h2 := hc.2 k hfind
      unfold runAgent MAX_STEPS
      rw [h2]
      by_cases hak : abort k <;> simp [hak] <;> omega
  · intro hnone
    have h1 := agentLoop_maxSteps responses abort 30 0 hnone
    have h2 := hc.1 hnone
    unfold runAgent MAX_STEPS
    rw [Prod.ext_iff]
    exact ⟨h1, h2⟩
  · intro k hfind
    have h2 := hc.2 k hfind
    unfold runAgent MAX_STEPS
    omega
  · cases hfind : (List.range' 0 20).find? (subExitAt subResponses subAbort subTimeout) with
    | none =>
      have h2 := hs.1 hfind
      unfold runSubTaskLoop MAX_SUB_TASK_STEPS
      omega
    | some k =>
      have hk20 : k < 20 := by
        have hmem := List.mem_of_find?_eq_some hfind
        have := List.mem_range'_1.mp hmem
        omega
      have h2 := hs.2 k hfind
      unfold runSubTaskLoop MAX_SUB_TASK_STEPS
      rw [h2]
      by_cases hak : subAbort k || subTimeout k <;> simp [hak] <;> omega
  · intro k hfind
    have h2 := hs.2 k hfind
    unfold runSubTaskLoop MAX_SUB_TASK_STEPS
    omega

/-- C8 (witness): with a zero-tool first response and no cancellation,
the loop exits at step 0 having made exactly one LLM call. -/
theorem agent_step_caps_witness :
    (List.range' 0 30).find? (agentExitAt wResponses wAbort) = some 0
    ∧ (runAgent wResponses wAbort).2 = 0 + (if wAbort 0 then 0 else 1) :=
  ⟨by decide, (agent_step_caps wResponses wResponses wAbort wAbort wAbort).2.2.1 0 (by decide)⟩

end Edith

